import Mathlib

/-!
Verification development for the CTG-Manager message relay.

The definitions below are a shallow embedding of the C++ sources:
* `src/src/client_manager.cpp`   — request gateway (dispatch, sync/async queries),
* `src/src/channel_resolver.cpp` — identifier resolution and cache,
* `src/src/media_handler.cpp`    — media transfer engine (tasks, group download),
* `src/src/restricted_channel_forwarder.cpp` — polling forwarding orchestrator.

Concurrency is embedded by making the nondeterministic inputs explicit
parameters (completion orders, backend outcomes), and stateful code by
explicit state passing.
-/

namespace CTG

/-! ### Request gateway (client_manager.cpp) -/

/-- The TDLib objects the dispatch code distinguishes (client_manager.cpp,
`process_response`): authorization-state updates, `ok`, `error`,
`updateNewMessage`, and every other payload kind (`messages`, `chat`,
`file`, ...) collapsed into `payload` with its object id. -/
inductive TdObj where
  | updateAuthorizationState (stateId : Int)
  | okObj
  | errorObj (code : Int) (msg : String)
  | updateNewMessage (msgId : Int)
  | payload (objectId : Int)
  deriving DecidableEq, Repr

def TdObj.isAuthUpdate : TdObj → Bool
  | .updateAuthorizationState _ => true
  | _ => false

/-- The dispatch branch at client_manager.cpp:329 fires only for objects whose
id is `td_api::ok::ID` or `td_api::error::ID`. -/
def TdObj.isOkOrError : TdObj → Bool
  | .okObj => true
  | .errorObj _ _ => true
  | _ => false

/-- `std::map<std::uint64_t, handler>` represented as an association list kept
sorted ascending by key, so that the list head is `begin()`.  Handlers are
abstracted by a numeric tag. -/
abbrev HandlerMap := List (Nat × Nat)

/-- `map[k] = v` on the sorted association list (insert or replace). -/
def mapInsert (k v : Nat) : HandlerMap → HandlerMap
  | [] => [(k, v)]
  | (k2, v2) :: rest =>
    if k < k2 then (k, v) :: (k2, v2) :: rest
    else if k = k2 then (k, v) :: rest
    else (k2, v2) :: mapInsert k v rest

/-- `map.erase(k)`. -/
def mapErase (k : Nat) (m : HandlerMap) : HandlerMap :=
  m.filter (fun p => p.1 ≠ k)

/-- `map.find(k)` by key. -/
def mapLookup (k : Nat) : HandlerMap → Option Nat
  | [] => none
  | (k2, v) :: rest => if k = k2 then some v else mapLookup k rest

/-- What one call of `ClientManager::process_response` did: the response-handler
map afterwards, which completion sink (if any) was invoked (its query id and
handler tag), and whether the object was fed to the auth state machine. -/
structure DispatchResult where
  handlers : HandlerMap
  invoked : Option (Nat × Nat)
  authFed : Bool
  deriving DecidableEq, Repr

/-- ClientManager::process_response (client_manager.cpp:294-348).
An authorization-state update is fed to the auth machine and nothing else
happens.  An `updateNewMessage` goes to the update-handler path (and, the
object having been moved from, never reaches the response branch).  For an
`ok` or `error` object the code pops `response_handlers_.begin()` — the entry
with the smallest query id — and invokes that handler; the object carries no
request id at this point, so no id matching happens.  Any other payload
invokes no completion sink at all. -/
def process_response (handlers : HandlerMap) (obj : TdObj) : DispatchResult :=
  match obj with
  | .updateAuthorizationState _ => { handlers := handlers, invoked := none, authFed := true }
  | .updateNewMessage _ => { handlers := handlers, invoked := none, authFed := false }
  | _ =>
    if obj.isOkOrError then
      match handlers with
      | [] => { handlers := [], invoked := none, authFed := false }
      | (qid, h) :: rest => { handlers := rest, invoked := some (qid, h), authFed := false }
    else
      { handlers := handlers, invoked := none, authFed := false }

/-- One item of the inbound stream as produced by `td::ClientManager::receive`:
the response's request id together with the object. -/
structure InboundItem where
  requestId : Nat
  obj : TdObj
  deriving DecidableEq, Repr

/-- The body of the receive loop (client_manager.cpp:277-292): the item's
`request_id` is dropped and only the object is passed to `process_response`. -/
def process_updates_step (handlers : HandlerMap) (item : InboundItem) : DispatchResult :=
  process_response handlers item.obj

/-- State of the gateway relevant to query submission: the pending
response-handler map and the monotonically increasing query counter. -/
structure ClientMgrState where
  responseHandlers : HandlerMap
  queryCounter : Nat
  deriving DecidableEq, Repr

/-- ClientManager::send_query_async (client_manager.cpp:192-210): bump the
counter, record the handler (when one is given) under the fresh id, send. -/
def send_query_async (st : ClientMgrState) (handler : Option Nat) : Nat × ClientMgrState :=
  let qid := st.queryCounter + 1
  match handler with
  | some h =>
    (qid, { responseHandlers := mapInsert qid h st.responseHandlers, queryCounter := qid })
  | none => (qid, { st with queryCounter := qid })

inductive QueryError where
  | timeout
  deriving DecidableEq, Repr

/-- Result of a synchronous call: the outcome, the gateway state afterwards,
and the query id that was assigned to the request. -/
structure SyncCallResult where
  result : Except QueryError TdObj
  state : ClientMgrState
  queryId : Nat
  deriving Repr

/-- ClientManager::send_query (client_manager.cpp:166-190).  The call submits
asynchronously with a handler that fulfils the promise, then waits.
`responded` is `some obj` when the response arrived before the timeout (the
handler removal then happened inside the dispatch loop) and `none` when no
response ever arrived: in that case the branch at lines 181-186 erases the
recorded handler for this query id and the call throws the timeout error. -/
def send_query (st : ClientMgrState) (handlerTag : Nat) (responded : Option TdObj) :
    SyncCallResult :=
  let (qid, st1) := send_query_async st (some handlerTag)
  match responded with
  | some obj => { result := Except.ok obj, state := st1, queryId := qid }
  | none =>
    { result := Except.error QueryError.timeout
      state := { st1 with responseHandlers := mapErase qid st1.responseHandlers }
      queryId := qid }

/-! ### Gateway helper lemmas -/

theorem mapErase_not_mem (k : Nat) (m : HandlerMap) :
    ∀ p ∈ mapErase k m, p.1 ≠ k := by
  intro p hp
  have := List.of_mem_filter hp
  simpa using this

theorem mapLookup_erase (k : Nat) (m : HandlerMap) :
    mapLookup k (mapErase k m) = none := by
  induction m with
  | nil => rfl
  | cons p rest ih =>
    obtain ⟨k2, v2⟩ := p
    simp only [mapErase, List.filter_cons] at ih ⊢
    by_cases h : k2 = k
    · simpa [h] using ih
    · rw [if_pos (by simpa using h)]
      rw [mapLookup, if_neg (fun hk : k = k2 => h hk.symm)]
      exact ih

theorem process_response_invoked_mem (handlers : HandlerMap) (obj : TdObj) :
    ∀ p, (process_response handlers obj).invoked = some p → p ∈ handlers := by
  intro p hp
  cases obj with
  | updateAuthorizationState s => simp [process_response] at hp
  | updateNewMessage m => simp [process_response] at hp
  | okObj =>
    cases handlers with
    | nil => simp [process_response, TdObj.isOkOrError] at hp
    | cons q rest =>
      simp [process_response, TdObj.isOkOrError] at hp
      simp [← hp]
  | errorObj c m =>
    cases handlers with
    | nil => simp [process_response, TdObj.isOkOrError] at hp
    | cons q rest =>
      simp [process_response, TdObj.isOkOrError] at hp
      simp [← hp]
  | payload i => simp [process_response, TdObj.isOkOrError] at hp

/-! ### Claim C1 -/

/-- Two pending requests, with query ids 1 and 2 (handler tags 10 and 20). -/
def c1Handlers : HandlerMap := [(1, 10), (2, 20)]

/-- An `ok` response whose request id (as reported by `receive`) is 2. -/
def c1Item : InboundItem := { requestId := 2, obj := TdObj.okObj }

/-- C1: refuted at a concrete input.  The claim says a response whose id
matches a PendingRequest removes exactly that request and invokes its sink,
never a different request's sink.  On the inbound response for request id 2,
the dispatch step invokes and removes the handler of request id 1 instead:
`process_updates_step` drops the request id and `process_response` pops the
first entry of the handler map. -/
theorem c1_dispatch_invokes_wrong_sink :
    mapLookup c1Item.requestId c1Handlers = some 20
    ∧ (process_updates_step c1Handlers c1Item).invoked = some (1, 10)
    ∧ (process_updates_step c1Handlers c1Item).handlers = [(2, 20)] := by
  refine ⟨rfl, rfl, rfl⟩

/-! ### Claim C7 -/

/-- C7: a synchronous `send_query` whose request never receives a response
fails with the timeout error, and the completion handler recorded for its
query id is removed, so no later dispatch of any inbound object can ever
invoke that handler: whatever sink a later `process_response` invokes, it is
not the one registered for the timed-out query id. -/
theorem c7_timeout_removes_handler (st : ClientMgrState) (tag : Nat) (obj : TdObj) :
    (send_query st tag none).result = Except.error QueryError.timeout
    ∧ mapLookup (send_query st tag none).queryId
        (send_query st tag none).state.responseHandlers = none
    ∧ (process_response (send_query st tag none).state.responseHandlers obj).invoked.map
        Prod.fst ≠ some (send_query st tag none).queryId := by
  refine ⟨rfl, ?_, ?_⟩
  · simpa [send_query, send_query_async] using
      mapLookup_erase (st.queryCounter + 1) (mapInsert (st.queryCounter + 1) tag st.responseHandlers)
  · intro hcontra
    set hs := (send_query st tag none).state.responseHandlers with hhs
    cases hinv : (process_response hs obj).invoked with
    | none => simp [hinv] at hcontra
    | some p =>
      have hmem : p ∈ hs := process_response_invoked_mem hs obj p hinv
      have hne : p.1 ≠ (send_query st tag none).queryId := by
        have := mapErase_not_mem (st.queryCounter + 1)
          (mapInsert (st.queryCounter + 1) tag st.responseHandlers) p
            (by simpa [hhs, send_query, send_query_async] using hmem)
        simpa [send_query, send_query_async] using this
      simp [hinv] at hcontra
      exact hne hcontra

/-! ### Channel resolver (channel_resolver.cpp) -/

/-- Numeric value of one ASCII digit. -/
def digitVal (c : Char) : Nat := c.toNat - 48

/-- Value of a run of decimal digits, most significant first. -/
def digitsToNat (ds : List Char) : Nat :=
  ds.foldl (fun n c => 10 * n + digitVal c) 0

/-- ChannelResolver::is_valid_channel_id (channel_resolver.cpp:103-122):
non-empty, the first four characters are `-100`, every later character is a
decimal digit, and at least one digit follows the four-character head. -/
def is_valid_channel_id (s : List Char) : Bool :=
  if s.isEmpty then false
  else if decide (s.take 4 = ['-', '1', '0', '0']) = false then false
  else if (s.drop 4).all Char.isDigit = false then false
  else decide (4 < s.length)

inductive ResolveError where
  | outOfRange
  | invalidArgument
  | channelNotFound
  deriving DecidableEq, Repr

def int64Min : Int := -9223372036854775808
def int64Max : Int := 9223372036854775807

/-- std::stoll, base 10: skip leading whitespace, read an optional sign and a
non-empty digit run; `invalid_argument` when no digits follow, `out_of_range`
when the value does not fit in a signed 64-bit long long. -/
def stoll (s : List Char) : Except ResolveError Int :=
  let s1 := s.dropWhile Char.isWhitespace
  let sr : Int × List Char :=
    match s1 with
    | c :: rest => if c = '-' then (-1, rest) else if c = '+' then (1, rest) else (1, s1)
    | [] => (1, [])
  let ds := sr.2.takeWhile Char.isDigit
  if ds.isEmpty then Except.error ResolveError.invalidArgument
  else
    let v : Int := sr.1 * (digitsToNat ds : Int)
    if v < int64Min ∨ int64Max < v then Except.error ResolveError.outOfRange
    else Except.ok v

/-- Identifier-to-chat-id cache (`channel_cache_`), keyed by the original
input string. -/
abbrev ChannelCache := List (List Char × Int)

def cacheLookup (cache : ChannelCache) (k : List Char) : Option Int :=
  match cache with
  | [] => none
  | (k2, v) :: rest => if k = k2 then some v else cacheLookup rest k

def cacheInsert (cache : ChannelCache) (k : List Char) (v : Int) : ChannelCache :=
  match cache with
  | [] => [(k, v)]
  | (k2, v2) :: rest =>
    if k = k2 then (k, v) :: rest else (k2, v2) :: cacheInsert rest k v

/-- Character list of the pattern `t.me/`. -/
def tmePat : List Char := ['t', '.', 'm', 'e', '/']

/-- Does `pat` occur as a contiguous run inside `s` (std::string::find ≠ npos). -/
def containsSub (pat : List Char) : List Char → Bool
  | [] => pat.isEmpty
  | c :: rest => pat.isPrefixOf (c :: rest) || containsSub pat rest

/-- Characters after the first occurrence of `pat`, when it occurs. -/
def afterSub (pat : List Char) : List Char → Option (List Char)
  | [] => if pat.isEmpty then some [] else none
  | c :: rest =>
    if pat.isPrefixOf (c :: rest) then some ((c :: rest).drop pat.length)
    else afterSub pat rest

/-- ChannelResolver::extract_username_from_link (channel_resolver.cpp:89-101):
the regex `t\.me/([^/\s]+)` approximated by the first occurrence of `t.me/`
followed by a non-empty run of characters that are neither `/` nor
whitespace; throws a ChannelError otherwise.  (No claim depends on the finer
points of the regex search.) -/
def extract_username_from_link (s : List Char) : Except ResolveError (List Char) :=
  match afterSub tmePat s with
  | some rest =>
    let u := rest.takeWhile (fun c => ¬ (c = '/' ∨ c.isWhitespace = true))
    if u.isEmpty then Except.error ResolveError.channelNotFound else Except.ok u
  | none => Except.error ResolveError.channelNotFound

/-- Lines 54-68 of channel_resolver.cpp: derive the username from a link, an
`@username`, or take the identifier itself. -/
def username_of_identifier (s : List Char) : Except ResolveError (List Char) :=
  if containsSub tmePat s then extract_username_from_link s
  else
    match s with
    | '@' :: rest => Except.ok rest
    | _ => Except.ok s

/-- Outcome of ChannelResolver::resolve_channel_sync: the returned chat id or
the propagated error, the cache afterwards, and whether a backend query
(`searchPublicChat`) was issued. -/
structure ResolveResult where
  outcome : Except ResolveError Int
  cache : ChannelCache
  backendQueried : Bool
  deriving Repr

/-- ChannelResolver::resolve_channel_sync (channel_resolver.cpp:27-81).
`backend` models `get_chat_id_by_username` (`none` = backend error, which the
code turns into a thrown ChannelError).  Cache hit returns the cached id; a
valid `-100...` numeric id is parsed with `std::stoll`, cached and returned
without any backend call; anything else resolves the derived username through
the backend and caches the result. -/
def resolve_channel_sync (backend : List Char → Option Int) (cache : ChannelCache)
    (s : List Char) : ResolveResult :=
  match cacheLookup cache s with
  | some v => { outcome := Except.ok v, cache := cache, backendQueried := false }
  | none =>
    if is_valid_channel_id s then
      match stoll s with
      | Except.ok v =>
        { outcome := Except.ok v, cache := cacheInsert cache s v, backendQueried := false }
      | Except.error e => { outcome := Except.error e, cache := cache, backendQueried := false }
    else
      match username_of_identifier s with
      | Except.ok u =>
        match backend u with
        | some cid =>
          { outcome := Except.ok cid, cache := cacheInsert cache s cid, backendQueried := true }
        | none =>
          { outcome := Except.error ResolveError.channelNotFound, cache := cache
            backendQueried := true }
      | Except.error e =>
        { outcome := Except.error e, cache := cache, backendQueried := false }

/-! ### Resolver helper lemmas -/

theorem takeWhile_of_all {α : Type} (p : α → Bool) :
    ∀ l : List α, l.all p = true → l.takeWhile p = l := by
  intro l h
  induction l with
  | nil => rfl
  | cons c rest ih =>
    simp only [List.all_cons, Bool.and_eq_true] at h
    simp [List.takeWhile_cons, h.1, ih h.2]

theorem cacheLookup_mem (cache : ChannelCache) (k : List Char) (v : Int) :
    cacheLookup cache k = some v → (k, v) ∈ cache := by
  induction cache with
  | nil => intro h; simp [cacheLookup] at h
  | cons p rest ih =>
    obtain ⟨k2, v2⟩ := p
    intro h
    simp only [cacheLookup] at h
    by_cases hk : k = k2
    · rw [if_pos hk] at h
      injection h with h2
      subst hk
      subst h2
      exact List.mem_cons_self _ _
    · rw [if_neg hk] at h
      exact List.mem_cons_of_mem _ (ih h)

theorem cacheLookup_insert (cache : ChannelCache) (k : List Char) (v : Int) :
    cacheLookup (cacheInsert cache k v) k = some v := by
  induction cache with
  | nil => simp [cacheInsert, cacheLookup]
  | cons p rest ih =>
    obtain ⟨k2, v2⟩ := p
    by_cases hk : k = k2
    · simp [cacheInsert, hk, cacheLookup]
    · simp only [cacheInsert, if_neg hk]
      simp only [cacheLookup, if_neg hk]
      exact ih

/-- Invariant of every reachable cache: a key of valid `-100...` numeric shape
was only ever inserted with its own `stoll` value (channel_resolver.cpp:41-52
is the only insertion point for such keys; the username path at lines 70-78
only inserts keys that fail `is_valid_channel_id`). -/
def cacheWF (cache : ChannelCache) : Prop :=
  ∀ p ∈ cache, is_valid_channel_id p.1 = true → stoll p.1 = Except.ok p.2

/-! ### Claim C9 -/

/-- The identifier `-100` followed by nineteen `9`s: shape-valid, but its
value does not fit in a signed 64-bit integer. -/
def c9Overflow : List Char := ['-', '1', '0', '0'] ++ List.replicate 19 '9'

/-- C9: refuted at a concrete input.  The claim quantifies over every string
of the form `-100` followed by decimal digits, but for this 23-character
identifier `std::stoll` throws `out_of_range` (its value is below the
signed 64-bit minimum), so `resolve_channel_sync` propagates an exception
instead of returning the integer value, and caches nothing. -/
theorem c9_overflow_counterexample :
    is_valid_channel_id c9Overflow = true
    ∧ (resolve_channel_sync (fun _ => none) [] c9Overflow).outcome
        = Except.error ResolveError.outOfRange
    ∧ (resolve_channel_sync (fun _ => none) [] c9Overflow).cache = []
    ∧ (resolve_channel_sync (fun _ => none) [] c9Overflow).backendQueried = false := by
  refine ⟨by decide, by rfl, by rfl, by rfl⟩

/-- C9 (amended): for every identifier `-100` followed by a non-empty run of
decimal digits whose value fits in a signed 64-bit integer, and any reachable
(well-formed) cache, `resolve_channel_sync` returns the integer value of the
string, the cache maps the identifier to that value afterwards, and no
backend query is issued. -/
theorem c9_numeric_id_resolved_locally (backend : List Char → Option Int)
    (cache : ChannelCache) (ds : List Char)
    (hwf : cacheWF cache)
    (hne : ds ≠ [])
    (hdig : ds.all Char.isDigit = true)
    (hrange : (digitsToNat (['1', '0', '0'] ++ ds) : Int) ≤ 9223372036854775808) :
    (resolve_channel_sync backend cache (['-', '1', '0', '0'] ++ ds)).outcome
      = Except.ok (-(digitsToNat (['1', '0', '0'] ++ ds) : Int))
    ∧ cacheLookup (resolve_channel_sync backend cache (['-', '1', '0', '0'] ++ ds)).cache
        (['-', '1', '0', '0'] ++ ds)
      = some (-(digitsToNat (['1', '0', '0'] ++ ds) : Int))
    ∧ (resolve_channel_sync backend cache (['-', '1', '0', '0'] ++ ds)).backendQueried
      = false := by
  have hvalid : is_valid_channel_id (['-', '1', '0', '0'] ++ ds) = true := by
    have hlen : 0 < ds.length := List.length_pos.mpr hne
    simp [is_valid_channel_id, List.take, List.drop, hdig]
    omega
  have hstoll : stoll ('-' :: '1' :: '0' :: '0' :: ds)
      = Except.ok (-(digitsToNat ('1' :: '0' :: '0' :: ds) : Int)) := by
    have htake2 : List.takeWhile Char.isDigit ds = ds := takeWhile_of_all _ ds hdig
    have hn0 : (0 : Int) ≤ (digitsToNat ('1' :: '0' :: '0' :: ds) : Int) := Int.ofNat_nonneg _
    have hrange2 : (digitsToNat ('1' :: '0' :: '0' :: ds) : Int) ≤ 9223372036854775808 := by
      simpa using hrange
    simp only [stoll]
    simp +decide [List.dropWhile_cons, List.takeWhile_cons, htake2]
    simp only [int64Min, int64Max]
    omega
  simp only [List.cons_append, List.nil_append] at hvalid ⊢
  cases hcl : cacheLookup cache ('-' :: '1' :: '0' :: '0' :: ds) with
  | some v =>
    have hv : stoll ('-' :: '1' :: '0' :: '0' :: ds) = Except.ok v :=
      hwf _ (cacheLookup_mem cache _ v hcl) (by simpa using hvalid)
    have hveq : v = -(digitsToNat ('1' :: '0' :: '0' :: ds) : Int) := by
      rw [hstoll] at hv
      injection hv with h2
      exact h2.symm
    subst hveq
    refine ⟨?_, ?_, ?_⟩ <;> simp [resolve_channel_sync, hcl]
  | none =>
    refine ⟨?_, ?_, ?_⟩ <;>
      simp [resolve_channel_sync, hcl, hvalid, hstoll, cacheLookup_insert]

/-- Digit run of the witness identifier `-1001234567890`. -/
def c9Ds : List Char := ['1', '2', '3', '4', '5', '6', '7', '8', '9', '0']

/-- Witness for C9 (amended) at the identifier `-1001234567890` with an empty
cache. -/
theorem c9_numeric_id_witness :
    (resolve_channel_sync (fun _ => none) [] (['-', '1', '0', '0'] ++ c9Ds)).outcome
      = Except.ok (-(digitsToNat (['1', '0', '0'] ++ c9Ds) : Int))
    ∧ cacheLookup (resolve_channel_sync (fun _ => none) [] (['-', '1', '0', '0'] ++ c9Ds)).cache
        (['-', '1', '0', '0'] ++ c9Ds)
      = some (-(digitsToNat (['1', '0', '0'] ++ c9Ds) : Int))
    ∧ (resolve_channel_sync (fun _ => none) [] (['-', '1', '0', '0'] ++ c9Ds)).backendQueried
      = false :=
  c9_numeric_id_resolved_locally (fun _ => none) [] c9Ds
    (by intro p hp; cases hp) (by decide) (by decide) (by decide)

/-! ### Media transfer engine (media_handler.cpp, utils.cpp) -/

/-- Message content kinds distinguished by the code (`content_->get_id()`). -/
inductive ContentType where
  | text
  | photo
  | video
  | document
  | audio
  | sticker
  | animation
  | voiceNote
  | videoNote
  | other
  deriving DecidableEq, Repr

/-- The parts of a `td_api::message` the embedded code reads: chat id,
message id, content kind and the content's `media_album_id_` (the code treats
the empty string as absence). -/
structure Msg where
  chatId : Int
  id : Int
  contentType : ContentType
  albumId : String
  deriving DecidableEq, Repr

/-- get_media_group_id (utils.cpp:107-139): only photo, video, document and
audio contents carry a media-album id, and only when it is non-empty. -/
def get_media_group_id (m : Msg) : Option String :=
  match m.contentType with
  | ContentType.photo | ContentType.video | ContentType.document | ContentType.audio =>
    if m.albumId ≠ "" then some m.albumId else none
  | _ => none

/-- generate_message_id (utils.cpp:201-203). -/
def generate_message_id (chatId msgId : Int) : String :=
  toString chatId ++ "_" ++ toString msgId

inductive MediaTaskState where
  | pending
  | processing
  | completed
  | failed
  | cancelled
  deriving DecidableEq, Repr

/-- The claim-relevant fields of a MediaTask (media_handler.cpp:10-92). -/
structure MediaTask where
  taskId : String
  state : MediaTaskState
  msg : Msg
  error : String
  deriving DecidableEq, Repr

/-- MediaTask::MediaTask: a freshly enqueued download task. -/
def initialTask (m : Msg) : MediaTask :=
  { taskId := generate_message_id m.chatId m.id
    state := MediaTaskState.pending
    msg := m
    error := "" }

/-- The download worker's effect on a task (media_handler.cpp:468-489): on
success the task ends Completed, on a download error it ends Failed with the
error text recorded.  `oc` is the download outcome oracle (whether
`download_file` succeeds for that message). -/
def finishTask (oc : Msg → Bool) (t : MediaTask) : MediaTask :=
  if oc t.msg then { t with state := MediaTaskState.completed }
  else { t with state := MediaTaskState.failed, error := "download failed" }

/-- One download completion event: the worker that pulled the task at index
`i` finishes it.  Out-of-range indices have no effect. -/
def completeAt (oc : Msg → Bool) (ts : List MediaTask) (i : Nat) : List MediaTask :=
  match ts.get? i with
  | some t => ts.set i (finishTask oc t)
  | none => ts

/-- Run the download pool: apply the completion events in the order the
(concurrent) workers finish them. -/
def applyCompletions (oc : Msg → Bool) (ts : List MediaTask) (order : List Nat) :
    List MediaTask :=
  order.foldl (completeAt oc) ts

/-- MediaGroupTask (media_handler.cpp:94-150): group id plus the task list in
the order `add_task` appended them. -/
structure MediaGroupTask where
  groupId : String
  tasks : List MediaTask
  deriving DecidableEq, Repr

/-- MediaGroupTask::completed_count. -/
def completed_count (g : MediaGroupTask) : Nat :=
  (g.tasks.filter (fun t => t.state = MediaTaskState.completed)).length

/-- MediaGroupTask::failed_count. -/
def failed_count (g : MediaGroupTask) : Nat :=
  (g.tasks.filter (fun t => t.state = MediaTaskState.failed)).length

/-- MediaGroupTask::is_completed. -/
def is_completed (g : MediaGroupTask) : Bool :=
  completed_count g + failed_count g = g.tasks.length

/-- MediaHandler::download_media_group (media_handler.cpp:243-288).  An empty
message list, or a first message without a media-album id, resolves the group
future to a null pointer (`none`) and enqueues nothing.  Otherwise one
download per message is enqueued in list order, the pool completes them in
the arbitrary order `order`, and the joiner thread collects each future's
value — iterating the futures in submission order — into the group task.
The result is the resolved group future together with the list of messages
whose downloads were enqueued. -/
def download_media_group (oc : Msg → Bool) (order : List Nat) (messages : List Msg) :
    Option MediaGroupTask × List Msg :=
  match messages with
  | [] => (none, [])
  | m0 :: _ =>
    match get_media_group_id m0 with
    | none => (none, [])
    | some gid =>
      let finals := applyCompletions oc (messages.map initialTask) order
      (some { groupId := gid, tasks := finals }, messages)

/-! ### Engine helper lemmas -/

theorem finishTask_msg (oc : Msg → Bool) (t : MediaTask) :
    (finishTask oc t).msg = t.msg := by
  unfold finishTask
  by_cases h : oc t.msg <;> simp [h]

theorem listSetGetSelf {α : Type} :
    ∀ (l : List α) (i : Nat) (x : α), l.get? i = some x → l.set i x = l := by
  intro l
  induction l with
  | nil => intro i x h; cases h
  | cons a rest ih =>
    intro i x h
    cases i with
    | zero =>
      simp only [List.get?] at h
      injection h with h2
      simp [List.set, h2]
    | succ n =>
      simp only [List.get?] at h
      simp [List.set, ih n x h]

theorem completeAt_map_msg (oc : Msg → Bool) (ts : List MediaTask) (i : Nat) :
    (completeAt oc ts i).map MediaTask.msg = ts.map MediaTask.msg := by
  unfold completeAt
  cases hget : ts.get? i with
  | none => rfl
  | some t =>
    rw [List.map_set, finishTask_msg]
    apply listSetGetSelf
    rw [List.get?_map, hget]
    rfl

theorem applyCompletions_cons (oc : Msg → Bool) (ts : List MediaTask) (j : Nat)
    (rest : List Nat) :
    applyCompletions oc ts (j :: rest) = applyCompletions oc (completeAt oc ts j) rest := rfl

theorem applyCompletions_map_msg (oc : Msg → Bool) (order : List Nat) :
    ∀ ts : List MediaTask,
      (applyCompletions oc ts order).map MediaTask.msg = ts.map MediaTask.msg := by
  induction order with
  | nil => intro ts; rfl
  | cons i rest ih =>
    intro ts
    rw [applyCompletions_cons, ih, completeAt_map_msg]

theorem listGetSet_self {α : Type} :
    ∀ (l : List α) (i : Nat) (x : α), i < l.length → (l.set i x).get? i = some x := by
  intro l
  induction l with
  | nil => intro i x h; exact absurd h (Nat.not_lt_zero i)
  | cons a rest ih =>
    intro i x h
    cases i with
    | zero => rfl
    | succ n => simpa [List.set] using ih n x (Nat.lt_of_succ_lt_succ h)

theorem listGetSet_ne {α : Type} :
    ∀ (l : List α) (i j : Nat) (x : α), i ≠ j → (l.set i x).get? j = l.get? j := by
  intro l
  induction l with
  | nil => intro i j x _; rfl
  | cons a rest ih =>
    intro i j x h
    cases i with
    | zero =>
      cases j with
      | zero => exact absurd rfl h
      | succ m => rfl
    | succ n =>
      cases j with
      | zero => rfl
      | succ m =>
        simpa [List.set] using ih n m x (fun hnm => h (by rw [hnm]))

theorem finishTask_idem (oc : Msg → Bool) (t : MediaTask) :
    finishTask oc (finishTask oc t) = finishTask oc t := by
  unfold finishTask
  by_cases h : oc t.msg <;> simp [h]

theorem completeAt_length (oc : Msg → Bool) (ts : List MediaTask) (i : Nat) :
    (completeAt oc ts i).length = ts.length := by
  unfold completeAt
  cases ts.get? i <;> simp

theorem applyCompletions_length (oc : Msg → Bool) (order : List Nat) :
    ∀ ts : List MediaTask, (applyCompletions oc ts order).length = ts.length := by
  induction order with
  | nil => intro ts; rfl
  | cons i rest ih =>
    intro ts
    rw [applyCompletions_cons, ih, completeAt_length]

theorem completeAt_get_self (oc : Msg → Bool) (ts : List MediaTask) (i : Nat) :
    (completeAt oc ts i).get? i = (ts.get? i).map (finishTask oc) := by
  unfold completeAt
  cases hget : ts.get? i with
  | none => simpa using hget
  | some t =>
    have hi : i < ts.length := (List.get?_eq_some.mp hget).1
    rw [listGetSet_self ts i (finishTask oc t) hi]
    rfl

theorem completeAt_get_ne (oc : Msg → Bool) (ts : List MediaTask) (i j : Nat)
    (h : i ≠ j) : (completeAt oc ts i).get? j = ts.get? j := by
  unfold completeAt
  cases ts.get? i with
  | none => rfl
  | some t => exact listGetSet_ne ts i j (finishTask oc t) h

theorem applyCompletions_get_not_mem (oc : Msg → Bool) (order : List Nat) :
    ∀ (ts : List MediaTask) (i : Nat), i ∉ order →
      (applyCompletions oc ts order).get? i = ts.get? i := by
  induction order with
  | nil => intro ts i _; rfl
  | cons j rest ih =>
    intro ts i hi
    have hij : j ≠ i := fun he => hi (he ▸ List.mem_cons_self j rest)
    have hir : i ∉ rest := fun hr => hi (List.mem_cons_of_mem j hr)
    rw [applyCompletions_cons, ih _ i hir, completeAt_get_ne oc ts j i hij]

theorem applyCompletions_get_mem (oc : Msg → Bool) (order : List Nat) :
    ∀ (ts : List MediaTask) (i : Nat), i ∈ order →
      (applyCompletions oc ts order).get? i = (ts.get? i).map (finishTask oc) := by
  induction order with
  | nil => intro ts i hi; cases hi
  | cons j rest ih =>
    intro ts i hi
    rw [applyCompletions_cons]
    by_cases hir : i ∈ rest
    · rw [ih _ i hir]
      by_cases hij : i = j
      · subst hij
        rw [completeAt_get_self]
        cases ts.get? i with
        | none => rfl
        | some t => simp [finishTask_idem]
      · rw [completeAt_get_ne oc ts j i (fun he => hij he.symm)]
    · have hij : i = j := by
        cases hi with
        | head => rfl
        | tail _ h => exact absurd h hir
      subst hij
      rw [applyCompletions_get_not_mem oc rest _ i hir, completeAt_get_self]

/-- Under full coverage (every download eventually completes) the final task
list is pointwise the finished download of each input message, whatever the
completion order was. -/
theorem applyCompletions_full (oc : Msg → Bool) (order : List Nat) (messages : List Msg)
    (hcov : ∀ k, k < messages.length → k ∈ order) :
    applyCompletions oc (messages.map initialTask) order
      = messages.map (fun m => finishTask oc (initialTask m)) := by
  apply List.ext_get?
  intro k
  by_cases hk : k < messages.length
  · rw [applyCompletions_get_mem oc order _ k (hcov k hk)]
    rw [List.get?_map, List.get?_map]
    cases messages.get? k <;> rfl
  · have h1 : (applyCompletions oc (messages.map initialTask) order).length ≤ k := by
      rw [applyCompletions_length, List.length_map]
      omega
    have h2 : (messages.map (fun m => finishTask oc (initialTask m))).length ≤ k := by
      rw [List.length_map]
      omega
    rw [List.get?_eq_none.mpr h1, List.get?_eq_none.mpr h2]

/-! ### Claim C4 -/

/-- C4: for every media group, the task list of the MediaGroupTask produced by
the group download is in the original input message order — the completion
order `order` is arbitrary and does not influence it.  (The joiner thread at
media_handler.cpp:272-285 iterates the futures in submission order.) -/
theorem c4_group_tasks_follow_input_order (oc : Msg → Bool) (order : List Nat)
    (messages : List Msg) (gt : MediaGroupTask)
    (hgt : (download_media_group oc order messages).1 = some gt) :
    gt.tasks.map MediaTask.msg = messages := by
  cases messages with
  | nil => simp [download_media_group] at hgt
  | cons m0 rest =>
    cases hgid : get_media_group_id m0 with
    | none => simp [download_media_group, hgid] at hgt
    | some gid =>
      simp only [download_media_group, hgid] at hgt
      injection hgt with h2
      rw [← h2]
      rw [applyCompletions_map_msg]
      simp [initialTask, Function.comp_def]

/-- A two-element media group (album id `alb`). -/
def c4Msgs : List Msg :=
  [ { chatId := 1, id := 11, contentType := ContentType.photo, albumId := "alb" },
    { chatId := 1, id := 12, contentType := ContentType.video, albumId := "alb" } ]

/-- The group task produced when the second download finishes before the
first (completion order `[1, 0]`). -/
def c4Group : MediaGroupTask :=
  ((download_media_group (fun _ => true) [1, 0] c4Msgs).1).getD
    { groupId := "", tasks := [] }

/-- Witness for C4: with completions in reverse order the task list still
follows the input message order. -/
theorem c4_group_order_witness : c4Group.tasks.map MediaTask.msg = c4Msgs :=
  c4_group_tasks_follow_input_order (fun _ => true) [1, 0] c4Msgs c4Group (by decide)

/-! ### Claim C10 -/

/-- C10: `download_media_group` on an empty message list, or on a list whose
first message carries no media-album id, enqueues no download task and
resolves the group future to the null group task (`none`, never an empty
MediaGroupTask). -/
theorem c10_degenerate_group_download (oc : Msg → Bool) (order : List Nat)
    (m0 : Msg) (rest : List Msg) :
    download_media_group oc order [] = (none, [])
    ∧ (get_media_group_id m0 = none →
        download_media_group oc order (m0 :: rest) = (none, [])) := by
  constructor
  · rfl
  · intro hnone
    simp [download_media_group, hnone]

/-- Witness for C10: a text message has no media-album id, so a group
download started from it resolves to the null group task. -/
theorem c10_degenerate_witness :
    download_media_group (fun _ => true) []
      [{ chatId := 1, id := 5, contentType := ContentType.text, albumId := "" }]
      = (none, []) :=
  (c10_degenerate_group_download (fun _ => true) []
      { chatId := 1, id := 5, contentType := ContentType.text, albumId := "" } []).2
    (by decide)

/-! ### Forwarding orchestrator (restricted_channel_forwarder.cpp) -/

/-- The message-type filters recognised by `RestrictedChannelForwarder::init`
(restricted_channel_forwarder.cpp:68-102). -/
inductive MessageTypeFilter where
  | text
  | photo
  | video
  | document
  | audio
  | sticker
  | animation
  | all
  | unknown
  deriving DecidableEq, Repr

/-- One arm of the switch in `should_forward_message`
(restricted_channel_forwarder.cpp:404-444). -/
def filterMatches : MessageTypeFilter → ContentType → Bool
  | MessageTypeFilter.text, ContentType.text => true
  | MessageTypeFilter.photo, ContentType.photo => true
  | MessageTypeFilter.video, ContentType.video => true
  | MessageTypeFilter.document, ContentType.document => true
  | MessageTypeFilter.audio, ContentType.audio => true
  | MessageTypeFilter.sticker, ContentType.sticker => true
  | MessageTypeFilter.animation, ContentType.animation => true
  | _, _ => false

/-- RestrictedChannelForwarder::should_forward_message
(restricted_channel_forwarder.cpp:392-447): `All` passes everything,
otherwise the content type must match one of the configured filters. -/
def should_forward_message (filters : List MessageTypeFilter) (m : Msg) : Bool :=
  if filters.contains MessageTypeFilter.all then true
  else filters.any (fun f => filterMatches f m.contentType)

/-- RestrictedChannelForwarder::is_media_message
(restricted_channel_forwarder.cpp:612-619): note voice and video notes are
not included here. -/
def is_media_content : ContentType → Bool
  | ContentType.photo => true
  | ContentType.video => true
  | ContentType.document => true
  | ContentType.audio => true
  | ContentType.animation => true
  | ContentType.sticker => true
  | _ => false

/-- The environment of one poll cycle: the configured filters and the
oracles for everything the backend decides — per-message download outcomes,
the order in which pooled downloads complete, the group upload result
(`none` models a thrown upload error), the history window filtered to a
group id (`get_media_group_messages`), and the outcome of forwarding one
ordinary message (`sendMessage` succeeding or the download/upload pipeline
succeeding). -/
structure FwdEnv where
  filters : List MessageTypeFilter
  downloadOk : Msg → Bool
  completionOrder : List Nat
  uploadGroup : MediaGroupTask → Option (List Msg)
  groupHistory : String → List Msg
  forwardOk : Msg → Bool

/-- RestrictedChannelForwarder::forward_message
(restricted_channel_forwarder.cpp:502-519): text goes out directly, media
goes through download-then-upload, any other content type fails with a
warning. -/
def forward_message (env : FwdEnv) (m : Msg) : Bool :=
  match m.contentType with
  | ContentType.text => env.forwardOk m
  | t => if is_media_content t then env.forwardOk m else false

/-- RestrictedChannelForwarder::forward_media_group
(restricted_channel_forwarder.cpp:571-610).  Returns (success, whether a
group upload was attempted).  A null group task fails immediately; the code
then busy-waits until the group task is completed (with the full completion
order of the embedding every task is already terminal); any failed download
aborts before upload; otherwise the upload is attempted and an exception
(`none`) or an empty sent-message list is a failure. -/
def forward_media_group (env : FwdEnv) (msgs : List Msg) : Bool × Bool :=
  match (download_media_group env.downloadOk env.completionOrder msgs).1 with
  | none => (false, false)
  | some gt =>
    if 0 < failed_count gt then (false, false)
    else
      match env.uploadGroup gt with
      | none => (false, true)
      | some sent => (decide (sent ≠ []), true)

/-- The orchestrator state mutated by the poll loop: the cursor
(`last_message_id_`), the set of processed media-group ids
(`processed_media_groups_`, membership is all the code reads), and the two
counters. -/
structure FwdState where
  lastMessageId : Int
  processedGroups : List String
  forwardedCount : Nat
  failedCount : Nat
  deriving DecidableEq, Repr

/-- std::set insert (only membership is observable). -/
def setInsert (gid : String) (l : List String) : List String :=
  if gid ∈ l then l else gid :: l

/-- RestrictedChannelForwarder::media_group_processed
(restricted_channel_forwarder.cpp:449-451). -/
def media_group_processed (st : FwdState) (gid : String) : Bool :=
  gid ∈ st.processedGroups

/-- RestrictedChannelForwarder::update_last_message_id
(restricted_channel_forwarder.cpp:453-457). -/
def update_last_message_id (lastId : Int) (msgs : List Msg) : Int :=
  msgs.foldl (fun acc m => max acc m.id) lastId

/-- The per-message body of the poll loop
(restricted_channel_forwarder.cpp:212-275).  A message failing the filter is
skipped by `continue` with no state change.  A message of an unprocessed
media group fetches that group's history window; a non-empty window is
forwarded as a group: on success the counter, the processed-group set and the
cursor advance over all members, on failure only the failure counter moves.
A member of an already-processed group only advances the cursor.  An
ordinary message advances the cursor only on success; on failure only the
failure counter moves. -/
def processOneMessage (env : FwdEnv) (st : FwdState) (m : Msg) : FwdState :=
  if should_forward_message env.filters m = false then st
  else
    match get_media_group_id m with
    | some gid =>
      if media_group_processed st gid = false then
        let groupMsgs := env.groupHistory gid
        if groupMsgs.isEmpty then st
        else if (forward_media_group env groupMsgs).1 then
          { st with
            forwardedCount := st.forwardedCount + groupMsgs.length
            processedGroups := setInsert gid st.processedGroups
            lastMessageId := update_last_message_id st.lastMessageId groupMsgs }
        else
          { st with failedCount := st.failedCount + groupMsgs.length }
      else
        { st with lastMessageId := max st.lastMessageId m.id }
    | none =>
      if forward_message env m then
        { st with
          forwardedCount := st.forwardedCount + 1
          lastMessageId := max st.lastMessageId m.id }
      else
        { st with failedCount := st.failedCount + 1 }

/-- The for-loop over one fetched batch (restricted_channel_forwarder.cpp:212). -/
def processBatch (env : FwdEnv) (st : FwdState) (batch : List Msg) : FwdState :=
  batch.foldl (processOneMessage env) st

/-- The new-message fetch (restricted_channel_forwarder.cpp:302-332): keep the
messages with id greater than the cursor.  (The subsequent ascending sort
does not change membership and no claim depends on the sort itself.) -/
def get_new_messages (history : List Msg) (lastId : Int) : List Msg :=
  history.filter (fun m => lastId < m.id)

/-! ### Claim C2 -/

/-- A cycle environment that filters to photos only and whose ordinary
forwarding always fails. -/
def c2Env : FwdEnv :=
  { filters := [MessageTypeFilter.photo]
    downloadOk := fun _ => true
    completionOrder := []
    uploadGroup := fun _ => some []
    groupHistory := fun _ => []
    forwardOk := fun _ => false }

/-- A text message: it fails the photo-only filter. -/
def c2FilteredMsg : Msg :=
  { chatId := 1, id := 5, contentType := ContentType.text, albumId := "" }

/-- A non-grouped photo: it passes the filter but its forwarding fails. -/
def c2FailMsg : Msg :=
  { chatId := 1, id := 7, contentType := ContentType.photo, albumId := "" }

/-- The orchestrator state at the start of the cycle (cursor 0). -/
def c2St0 : FwdState :=
  { lastMessageId := 0, processedGroups := [], forwardedCount := 0, failedCount := 0 }

/-- C2: refuted at concrete inputs.  The claim says the cursor is advanced
past a filter-failing message and past an ordinary message whose forwarding
fails.  In both cases the cursor stays strictly below the message id: the
filter branch is a bare `continue` (restricted_channel_forwarder.cpp:215-218)
and the single-message failure branch only bumps the failure counter
(lines 266-269). -/
theorem c2_cursor_counterexample :
    should_forward_message c2Env.filters c2FilteredMsg = false
    ∧ (processOneMessage c2Env c2St0 c2FilteredMsg).lastMessageId < c2FilteredMsg.id
    ∧ get_media_group_id c2FailMsg = none
    ∧ forward_message c2Env c2FailMsg = false
    ∧ (processOneMessage c2Env c2St0 c2FailMsg).lastMessageId < c2FailMsg.id := by
  decide

/-- C2 (amended): a message that fails the configured message-type filter is
skipped with no state change at all (in particular the cursor does not
advance past it), and an ordinary non-grouped message that passes the filter
but whose forwarding fails only increments the failure counter, again leaving
the cursor where it was — both are fetched and attempted again by a later
poll cycle while the cursor stays below their id. -/
theorem c2_failure_leaves_cursor (env : FwdEnv) (st : FwdState) (m : Msg) :
    (should_forward_message env.filters m = false → processOneMessage env st m = st)
    ∧ (should_forward_message env.filters m = true →
        get_media_group_id m = none →
        forward_message env m = false →
        processOneMessage env st m = { st with failedCount := st.failedCount + 1 }) := by
  constructor
  · intro h
    simp [processOneMessage, h]
  · intro hfilter hg hf
    simp [processOneMessage, hfilter, hg, hf]

/-- Witness for C2 (amended) at the two concrete messages of the
counterexample environment. -/
theorem c2_failure_leaves_cursor_witness :
    processOneMessage c2Env c2St0 c2FilteredMsg = c2St0
    ∧ processOneMessage c2Env c2St0 c2FailMsg
      = { c2St0 with failedCount := c2St0.failedCount + 1 } :=
  ⟨(c2_failure_leaves_cursor c2Env c2St0 c2FilteredMsg).1 (by decide),
   (c2_failure_leaves_cursor c2Env c2St0 c2FailMsg).2 (by decide) (by decide) (by decide)⟩

/-! ### Claim C6 -/

theorem update_last_message_id_le (lastId : Int) (msgs : List Msg) :
    lastId ≤ update_last_message_id lastId msgs := by
  induction msgs generalizing lastId with
  | nil => exact le_refl _
  | cons m rest ih =>
    unfold update_last_message_id at ih ⊢
    rw [List.foldl_cons]
    exact le_trans (le_max_left _ _) (ih (max lastId m.id))

theorem processOne_cursor_le (env : FwdEnv) (st : FwdState) (m : Msg) :
    st.lastMessageId ≤ (processOneMessage env st m).lastMessageId := by
  unfold processOneMessage
  by_cases h1 : should_forward_message env.filters m = false
  · simp [h1]
  · simp only [h1, if_false]
    cases get_media_group_id m with
    | none =>
      by_cases h2 : forward_message env m <;> simp [h2, le_max_left]
    | some gid =>
      by_cases h3 : media_group_processed st gid = false
      · simp only [h3, if_true]
        by_cases h4 : (env.groupHistory gid).isEmpty
        · simp [h4]
        · simp only [h4, Bool.false_eq_true, if_false]
          by_cases h5 : (forward_media_group env (env.groupHistory gid)).1
          · simp [h5, update_last_message_id_le]
          · simp [h5]
      · simp [h3, le_max_left]

theorem processBatch_cursor_le (env : FwdEnv) (batch : List Msg) :
    ∀ st : FwdState, st.lastMessageId ≤ (processBatch env st batch).lastMessageId := by
  induction batch with
  | nil => intro st; exact le_refl _
  | cons m rest ih =>
    intro st
    unfold processBatch at ih ⊢
    rw [List.foldl_cons]
    exact le_trans (processOne_cursor_le env st m) (ih (processOneMessage env st m))

/-- C6: the cursor is monotonically non-decreasing — every per-message step
and every whole-batch step of the poll loop can only keep or increase
`last_message_id_` (every mutation is through `max`, and the failure/retry
paths leave it untouched). -/
theorem c6_cursor_monotone (env : FwdEnv) (st : FwdState) (m : Msg) (batch : List Msg) :
    st.lastMessageId ≤ (processOneMessage env st m).lastMessageId
    ∧ st.lastMessageId ≤ (processBatch env st batch).lastMessageId :=
  ⟨processOne_cursor_le env st m, processBatch_cursor_le env batch st⟩

/-! ### Claim C5 -/

theorem setInsert_supset (gid : String) (l : List String) :
    ∀ g ∈ l, g ∈ setInsert gid l := by
  intro g hg
  unfold setInsert
  by_cases h : gid ∈ l
  · simpa [h] using hg
  · simp only [h, if_false]
    exact List.mem_cons_of_mem gid hg

theorem setInsert_length_ge (gid : String) (l : List String) :
    l.length ≤ (setInsert gid l).length := by
  unfold setInsert
  by_cases h : gid ∈ l <;> simp [h]

theorem setInsert_length_new (gid : String) (l : List String) (h : gid ∉ l) :
    (setInsert gid l).length = l.length + 1 := by
  unfold setInsert
  simp [h]

theorem processOne_groups_monotone (env : FwdEnv) (st : FwdState) (m : Msg) :
    (∀ g ∈ st.processedGroups, g ∈ (processOneMessage env st m).processedGroups)
    ∧ st.processedGroups.length ≤ (processOneMessage env st m).processedGroups.length := by
  unfold processOneMessage
  by_cases h1 : should_forward_message env.filters m = false
  · simp [h1]
  · simp only [h1, if_false]
    cases get_media_group_id m with
    | none =>
      by_cases h2 : forward_message env m <;> simp [h2]
    | some gid =>
      by_cases h3 : media_group_processed st gid = false
      · simp only [h3, if_true]
        by_cases h4 : (env.groupHistory gid).isEmpty
        · simp [h4]
        · simp only [h4, Bool.false_eq_true, if_false]
          by_cases h5 : (forward_media_group env (env.groupHistory gid)).1
          · simp only [h5, if_true]
            exact ⟨setInsert_supset gid st.processedGroups,
              setInsert_length_ge gid st.processedGroups⟩
          · simp [h5]
      · simp [h3]

/-- A one-member media group with album id `c`, used to grow the dedup set. -/
def c5GroupMsg : Msg :=
  { chatId := 1, id := 31, contentType := ContentType.photo, albumId := "c" }

/-- An environment in which the group `c` downloads and uploads successfully
(so the successful-forward branch marks it processed). -/
def c5Env : FwdEnv :=
  { filters := [MessageTypeFilter.all]
    downloadOk := fun _ => true
    completionOrder := [0]
    uploadGroup := fun _ =>
      some [{ chatId := 2, id := 99, contentType := ContentType.photo, albumId := "" }]
    groupHistory := fun g => if g = "c" then [c5GroupMsg] else []
    forwardOk := fun _ => true }

/-- An orchestrator state whose processed-group set already holds two ids. -/
def c5St : FwdState :=
  { lastMessageId := 0, processedGroups := ["a", "b"], forwardedCount := 0, failedCount := 0 }

/-- C5: refuted at a concrete input.  The claim says the processed sets are
bounded by a threshold with oldest-inserted eviction.  Instantiating the
threshold at 2, with the group set already holding two ids, one more
successfully forwarded media group leaves the set at size 3 and both older
entries still present: the staged marking (restricted_channel_forwarder.cpp:
238) is a plain insert, nothing is ever evicted, and the bound is exceeded. -/
theorem c5_threshold_exceeded_counterexample :
    c5St.processedGroups.length = 2
    ∧ (processOneMessage c5Env c5St c5GroupMsg).processedGroups.length = 3
    ∧ "a" ∈ (processOneMessage c5Env c5St c5GroupMsg).processedGroups
    ∧ "b" ∈ (processOneMessage c5Env c5St c5GroupMsg).processedGroups := by
  decide

/-- C5 (amended): the staged orchestrator maintains no processed-message-id
set at all (ordinary messages are deduplicated by the cursor alone), and its
processed-media-group set is NOT bounded: no step of the poll loop ever
evicts an entry (every member stays a member and the size never shrinks), and
successfully forwarding a not-yet-processed media group grows the set by one,
so its size eventually exceeds any threshold.
`limit_processed_collections` is declared (src/unnamed/part_002:228) but
never defined or called in the sources. -/
theorem c5_group_set_never_evicted (env : FwdEnv) (st : FwdState) (m : Msg) (gid : String) :
    (∀ g ∈ st.processedGroups, g ∈ (processOneMessage env st m).processedGroups)
    ∧ st.processedGroups.length ≤ (processOneMessage env st m).processedGroups.length
    ∧ (should_forward_message env.filters m = true →
        get_media_group_id m = some gid →
        media_group_processed st gid = false →
        (env.groupHistory gid).isEmpty = false →
        (forward_media_group env (env.groupHistory gid)).1 = true →
        (processOneMessage env st m).processedGroups.length
          = st.processedGroups.length + 1) := by
  refine ⟨(processOne_groups_monotone env st m).1,
    (processOne_groups_monotone env st m).2, ?_⟩
  intro hfilter hm hnp hie hfwd
  have hnotmem : gid ∉ st.processedGroups := by
    simpa [media_group_processed] using hnp
  simp [processOneMessage, hfilter, hm, hnp, hie, hfwd,
    setInsert_length_new gid _ hnotmem]

/-- Witness for C5 (amended): at the concrete state with two processed
groups, an older entry survives the step, the size does not shrink, and the
successfully forwarded new group grows the set by exactly one. -/
theorem c5_group_set_never_evicted_witness :
    "a" ∈ (processOneMessage c5Env c5St c5GroupMsg).processedGroups
    ∧ c5St.processedGroups.length
        ≤ (processOneMessage c5Env c5St c5GroupMsg).processedGroups.length
    ∧ (processOneMessage c5Env c5St c5GroupMsg).processedGroups.length
        = c5St.processedGroups.length + 1 :=
  ⟨(c5_group_set_never_evicted c5Env c5St c5GroupMsg "c").1 "a" (by decide),
   (c5_group_set_never_evicted c5Env c5St c5GroupMsg "c").2.1,
   (c5_group_set_never_evicted c5Env c5St c5GroupMsg "c").2.2
     (by decide) (by decide) (by decide) (by decide) (by decide)⟩

/-! ### Claim C8 -/

inductive ForwarderMode where
  | continuous
  | oneTime
  deriving DecidableEq, Repr

inductive LoopControl where
  | continueLoop
  | exitLoop
  deriving DecidableEq, Repr

/-- The end of one poll cycle (restricted_channel_forwarder.cpp:280-287).
The exit statement written at line 283 for the one-shot case is `breaking;`,
which names an undeclared identifier: it is not a `break` statement and the
translation unit is ill-formed.  Modelling the statement by its only
effect-free reading (a discarded id-expression), the cycle never requests a
loop exit in either mode; in both branches the loop falls through to the
sleep and polls again. -/
def one_shot_cycle_control (mode : ForwarderMode) (batchNonEmpty : Bool) : LoopControl :=
  if mode = ForwarderMode.oneTime ∧ batchNonEmpty = true then
    LoopControl.continueLoop
  else LoopControl.continueLoop

/-- C8: evaluated at the failing input.  In one-shot mode, after a cycle that
processed a non-empty batch, the loop as written does not exit (the claim
says it terminates cleanly after that cycle). -/
theorem c8_one_shot_does_not_exit :
    one_shot_cycle_control ForwarderMode.oneTime true = LoopControl.continueLoop
    ∧ one_shot_cycle_control ForwarderMode.oneTime true ≠ LoopControl.exitLoop := by
  decide

/-! ### Claim C3 -/

/-- The finished download task of a message. -/
def runDownload (oc : Msg → Bool) (m : Msg) : MediaTask :=
  finishTask oc (initialTask m)

theorem runDownload_state (oc : Msg → Bool) (m : Msg) :
    (runDownload oc m).state
      = (if oc m then MediaTaskState.completed else MediaTaskState.failed) := by
  unfold runDownload finishTask initialTask
  by_cases h : oc m <;> simp [h]

theorem count_completed_map (oc : Msg → Bool) (msgs : List Msg) :
    ((msgs.map (runDownload oc)).filter
        (fun t => t.state = MediaTaskState.completed)).length
      = (msgs.filter (fun m => oc m)).length := by
  induction msgs with
  | nil => rfl
  | cons m rest ih =>
    rw [List.map_cons, List.filter_cons, List.filter_cons]
    by_cases h : oc m <;>
      simp [runDownload_state, h, ih]

theorem count_failed_map (oc : Msg → Bool) (msgs : List Msg) :
    ((msgs.map (runDownload oc)).filter
        (fun t => t.state = MediaTaskState.failed)).length
      = (msgs.filter (fun m => oc m = false)).length := by
  induction msgs with
  | nil => rfl
  | cons m rest ih =>
    rw [List.map_cons, List.filter_cons, List.filter_cons]
    by_cases h : oc m <;>
      simp [runDownload_state, h, ih]

theorem counts_cover_map (oc : Msg → Bool) (msgs : List Msg) :
    ((msgs.map (runDownload oc)).filter
        (fun t => t.state = MediaTaskState.completed)).length
      + ((msgs.map (runDownload oc)).filter
          (fun t => t.state = MediaTaskState.failed)).length
      = msgs.length := by
  induction msgs with
  | nil => rfl
  | cons m rest ih =>
    rw [List.map_cons, List.filter_cons, List.filter_cons, List.length_cons]
    by_cases h : oc m <;>
      simp [runDownload_state, h] <;> omega

theorem download_media_group_resolves (oc : Msg → Bool) (order : List Nat)
    (m0 : Msg) (rest : List Msg) (gid : String)
    (h0 : get_media_group_id m0 = some gid)
    (hcov : ∀ k, k < (m0 :: rest).length → k ∈ order) :
    (download_media_group oc order (m0 :: rest)).1
      = some { groupId := gid, tasks := (m0 :: rest).map (runDownload oc) } := by
  simp only [download_media_group, h0]
  rw [applyCompletions_full oc order (m0 :: rest) hcov]
  rfl

/-- C3: a media group in which at least one member's download fails still
resolves its group download (every task terminal, `completed_count` and
`failed_count` reflecting the per-member outcomes), the orchestrator attempts
no group upload, and the per-message step leaves the processed-group set and
the cursor unchanged (so the group is fetched and attempted again on a later
poll cycle), bumping only the failure counter. -/
theorem c3_failed_group_not_marked (env : FwdEnv) (st : FwdState) (m : Msg) (gid : String)
    (hfilter : should_forward_message env.filters m = true)
    (hm : get_media_group_id m = some gid)
    (hnp : media_group_processed st gid = false)
    (hne : env.groupHistory gid ≠ [])
    (hmem : ∀ mm ∈ env.groupHistory gid, get_media_group_id mm = some gid)
    (hcov : ∀ k, k < (env.groupHistory gid).length → k ∈ env.completionOrder)
    (hfail : ∃ mm ∈ env.groupHistory gid, env.downloadOk mm = false) :
    ∃ gt, (download_media_group env.downloadOk env.completionOrder
            (env.groupHistory gid)).1 = some gt
      ∧ is_completed gt = true
      ∧ completed_count gt
          = ((env.groupHistory gid).filter (fun mm => env.downloadOk mm)).length
      ∧ failed_count gt
          = ((env.groupHistory gid).filter (fun mm => env.downloadOk mm = false)).length
      ∧ 0 < failed_count gt
      ∧ forward_media_group env (env.groupHistory gid) = (false, false)
      ∧ (processOneMessage env st m).processedGroups = st.processedGroups
      ∧ (processOneMessage env st m).lastMessageId = st.lastMessageId
      ∧ (processOneMessage env st m).failedCount
          = st.failedCount + (env.groupHistory gid).length := by
  obtain ⟨mf, hmf, hmfdl⟩ := hfail
  have hdl : (download_media_group env.downloadOk env.completionOrder
      (env.groupHistory gid)).1
      = some { groupId := gid
               tasks := (env.groupHistory gid).map (runDownload env.downloadOk) } := by
    cases hh : env.groupHistory gid with
    | nil => exact absurd hh hne
    | cons m0 rest =>
      have h0 : get_media_group_id m0 = some gid :=
        hmem m0 (hh ▸ List.mem_cons_self m0 rest)
      rw [download_media_group_resolves env.downloadOk env.completionOrder m0 rest gid h0
        (by rw [← hh]; exact hcov)]
  have hmemf : mf ∈ (env.groupHistory gid).filter (fun mm => env.downloadOk mm = false) :=
    List.mem_filter.mpr ⟨hmf, by simp [hmfdl]⟩
  have hfailpos : 0 < failed_count
      { groupId := gid, tasks := (env.groupHistory gid).map (runDownload env.downloadOk) } := by
    simp only [failed_count]
    rw [count_failed_map]
    refine List.length_pos.mpr (fun hnil => ?_)
    rw [hnil] at hmemf
    exact absurd hmemf (List.not_mem_nil mf)
  have hfwdPair : forward_media_group env (env.groupHistory gid) = (false, false) := by
    simp only [forward_media_group, hdl, if_pos hfailpos]
  have hie : (env.groupHistory gid).isEmpty = false := by
    cases hh : env.groupHistory gid with
    | nil => exact absurd hh hne
    | cons m0 rest => rfl
  have hproc : processOneMessage env st m
      = { st with failedCount := st.failedCount + (env.groupHistory gid).length } := by
    have hfwd1 : (forward_media_group env (env.groupHistory gid)).1 = false := by
      rw [hfwdPair]
    simp [processOneMessage, hfilter, hm, hnp, hie, hfwd1]
  refine ⟨_, hdl, ?_, ?_, ?_, hfailpos, hfwdPair, ?_, ?_, ?_⟩
  · simp only [is_completed, completed_count, failed_count, decide_eq_true_eq,
      List.length_map]
    exact counts_cover_map env.downloadOk (env.groupHistory gid)
  · simp only [completed_count]
    exact count_completed_map env.downloadOk (env.groupHistory gid)
  · simp only [failed_count]
    exact count_failed_map env.downloadOk (env.groupHistory gid)
  · rw [hproc]
  · rw [hproc]
  · rw [hproc]

/-- First member of the three-member group of the spec scenario. -/
def c3Head : Msg :=
  { chatId := 1, id := 21, contentType := ContentType.photo, albumId := "g3" }

/-- The three-member group of the spec scenario: item 2's download fails. -/
def c3Msgs : List Msg :=
  [ c3Head,
    { chatId := 1, id := 22, contentType := ContentType.photo, albumId := "g3" },
    { chatId := 1, id := 23, contentType := ContentType.photo, albumId := "g3" } ]

/-- Environment for the C3 scenario: download of message id 22 fails, the
history window for group `g3` is the three messages, completions arrive out
of order. -/
def c3Env : FwdEnv :=
  { filters := [MessageTypeFilter.all]
    downloadOk := fun m => decide (m.id ≠ 22)
    completionOrder := [2, 0, 1]
    uploadGroup := fun _ => some []
    groupHistory := fun g => if g = "g3" then c3Msgs else []
    forwardOk := fun _ => true }

/-- Witness for C3: the spec scenario — a 3-item media group whose second
item fails to download resolves with completed_count 2 and failed_count 1,
no upload is attempted, the group is not marked processed and the cursor does
not move. -/
theorem c3_failed_group_witness :
    ∃ gt, (download_media_group c3Env.downloadOk c3Env.completionOrder
            (c3Env.groupHistory "g3")).1 = some gt
      ∧ is_completed gt = true
      ∧ completed_count gt
          = ((c3Env.groupHistory "g3").filter (fun mm => c3Env.downloadOk mm)).length
      ∧ failed_count gt
          = ((c3Env.groupHistory "g3").filter (fun mm => c3Env.downloadOk mm = false)).length
      ∧ 0 < failed_count gt
      ∧ forward_media_group c3Env (c3Env.groupHistory "g3") = (false, false)
      ∧ (processOneMessage c3Env c2St0 (c3Head)).processedGroups
          = c2St0.processedGroups
      ∧ (processOneMessage c3Env c2St0 (c3Head)).lastMessageId = c2St0.lastMessageId
      ∧ (processOneMessage c3Env c2St0 (c3Head)).failedCount
          = c2St0.failedCount + (c3Env.groupHistory "g3").length :=
  c3_failed_group_not_marked c3Env c2St0 (c3Head) "g3"
    (by decide) (by decide) (by decide) (by decide) (by decide) (by decide) (by decide)

end CTG
